import Mathlib

/-!
Shallow embedding of the combat, trading, emotion-smoothing and procedural
placement logic of the `llm-game` repository, together with theorems checking
the natural-language specification against it.

Sources embedded:
* `src/hooks/useCombatSystem.ts`   (attack, flee)
* `src/hooks/useTradingSystem.ts`  (sendToLLM sell shortcut)
* `src/data/itemPrices.ts`         (itemPrices)
* `src/services/llmService.ts`     (sendEnemyToLLM fallback behaviour)
* `src/services/emotionDetectionService.ts` (updateEmotionHistory decay branch)
* `src/utils/proceduralPlacement.ts` (isValidPosition)

JavaScript numbers are modelled as `ℚ`/`ℤ` (all arithmetic the claims touch is
exact), `Math.round` as `jsRound`, strings that are scanned character-wise as
`List Char`, and each network call outcome as an explicit `Option String`
oracle parameter (`none` = request failed).
-/

namespace LlmGame

/-- Character lists stand in for the JavaScript strings that the code scans
character by character (`toLowerCase`, `includes`, regex matching). -/
abbrev Str := List Char

/-- JavaScript `Math.round`: round half towards positive infinity. -/
def jsRound (q : ℚ) : ℤ := ⌊q + 1/2⌋

/-- JavaScript `String.prototype.includes`: `containsSub n h` is true iff `n`
occurs as a contiguous substring of `h`. -/
def containsSub : Str → Str → Bool
  | n, [] => n.isEmpty
  | n, h :: t => n.isPrefixOf (h :: t) || containsSub n t

/-- `EmotionContext` from `src/services/llmService.ts`: all three fields are
optional in the TypeScript interface; `isEmotionActive` is coerced to a
boolean by the `?.` / `&&` checks at each use site. -/
structure EmotionContext where
  emotionDescription : Option Str
  emotionContext : Option Str
  isEmotionActive : Bool
deriving DecidableEq

/-- The guard `emotionContext?.isEmotionActive && emotionContext.emotionDescription`
used by combat and trading: yields the description only when the context is
present, active, and the description is a non-empty string (the empty string is
falsy in JavaScript). -/
def activeDescription : Option EmotionContext → Option Str
  | some ec =>
      if ec.isEmotionActive then
        match ec.emotionDescription with
        | some d => if d.isEmpty then none else some d
        | none => none
      else none
  | none => none

/-- Emotion-based damage modification from `attack` in
`src/hooks/useCombatSystem.ts` (lines 56-76): returns the damage multiplier
and the flavour suffix appended to combat messages. -/
def combatEmotionMod (ec : Option EmotionContext) : ℚ × String :=
  match activeDescription ec with
  | none => (1, "")
  | some d0 =>
      let d := d0.map Char.toLower
      if containsSub "angry".toList d || containsSub "frustrated".toList d then
        (12/10, " (Fueled by rage!)")
      else if containsSub "fearful".toList d || containsSub "anxious".toList d then
        (8/10, " (Trembling with fear...)")
      else if containsSub "happy".toList d || containsSub "cheerful".toList d then
        (11/10, " (Striking with confidence!)")
      else if containsSub "sad".toList d || containsSub "melancholy".toList d then
        (9/10, " (Half-hearted attack...)")
      else (1, "")

/-- Enemy counter-attack emotion modulation from `attack` (lines 136-150):
returns the counter damage and the flavour suffix. -/
def counterEmotionMod (dmg : ℤ) (ec : Option EmotionContext) : ℤ × String :=
  match activeDescription ec with
  | none => (dmg, "")
  | some d0 =>
      let d := d0.map Char.toLower
      if containsSub "fearful".toList d || containsSub "anxious".toList d then
        (jsRound ((dmg : ℚ) * (115/100)), " (Sensing your fear!)")
      else if containsSub "angry".toList d || containsSub "frustrated".toList d then
        (jsRound ((dmg : ℚ) * (95/100)), " (Wary of your rage!)")
      else (dmg, "")

/-- `Player` from `src/types/GameTypes.ts`. -/
structure Player where
  x : ℚ
  y : ℚ
  size : ℚ
  health : ℤ
  maxHealth : ℤ
  experience : ℤ
  level : ℤ
  inventory : List Str
  gold : ℤ
deriving DecidableEq

/-- `Enemy` from `src/types/GameTypes.ts`. -/
structure Enemy where
  id : String
  x : ℚ
  y : ℚ
  size : ℚ
  health : ℤ
  maxHealth : ℤ
  damage : ℤ
  color : String
  name : String
  personality : String
  battleCries : List String
  defeated : Bool
deriving DecidableEq

/-- The state visible to `useCombatSystem`: the hook's own `useState` pair
(`inCombat`, `enemyTalking`) together with the game state it mutates through
`setPlayer` / `setEnemies` / `setGameMessage`. -/
structure GameState where
  player : Player
  enemies : List Enemy
  inCombat : Option Enemy
  enemyTalking : Bool
  message : String
deriving DecidableEq

/-- Dialogue situation argument of `LLMService.sendEnemyToLLM`. -/
inductive Situation where
  | attack
  | defend
  | death
deriving DecidableEq

/-- `LLMService.sendEnemyToLLM` from `src/services/llmService.ts`: the network
outcome is the oracle `net` (`none` = fetch/parse failure); on failure the
catch block returns `enemy.battleCries[Math.floor(Math.random()*len)]`, with
the random draw modelled by the oracle index `r`. It never throws. -/
def sendEnemyToLLM (e : Enemy) (_situation : Situation)
    (net : Option String) (r : ℕ) : String :=
  match net with
  | some s => s
  | none => e.battleCries.getD (r % e.battleCries.length) "undefined"

/-- Player attack damage from `attack` (lines 56-78):
`Math.round((20 + player.level * 5) * damageMultiplier)`. -/
def attackDamage (p : Player) (ec : Option EmotionContext) : ℤ :=
  jsRound (((20 + p.level * 5 : ℤ) : ℚ) * (combatEmotionMod ec).1)

/-- The per-enemy update applied by `setEnemies(newEnemies)` in `attack`
(lines 80-84): subtract the damage from every enemy whose id equals the
in-combat target's id. -/
def damageUpdate (tid : String) (D : ℤ) (e : Enemy) : Enemy :=
  if e.id = tid then { e with health := e.health - D } else e

/-- The per-enemy update applied by the second `setEnemies` in the lethal
branch of `attack` (lines 109-111): mark every enemy whose id equals the
target's id as defeated. -/
def defeatUpdate (tid : String) (e : Enemy) : Enemy :=
  if e.id = tid then { e with defeated := true } else e

/-- `attack` from `src/hooks/useCombatSystem.ts` (lines 52-178), as the net
state transformation of one call. Oracles: `netDeath`/`netHurt`/`netAttack`
are the three possible enemy-dialogue network outcomes (`none` = failure, in
which case `sendEnemyToLLM` falls back to a battle cry and still resolves),
`rGold` the random gold draw (`Math.floor(Math.random()*20)` ≡ `rGold % 20`),
and `rF1 rF2 rF3` the random fallback battle-cry indices. The `catch` blocks
around the awaited dialogue calls are unreachable because `sendEnemyToLLM`
never rejects. -/
def attack (s : GameState) (ec : Option EmotionContext)
    (netDeath netHurt netAttack : Option String)
    (rGold rF1 rF2 rF3 : ℕ) : GameState :=
  match s.inCombat with
  | none => s
  | some tgt =>
    if s.enemyTalking then s
    else
      let emotionMessage := (combatEmotionMod ec).2
      let damage : ℤ := attackDamage s.player ec
      let newEnemies := s.enemies.map (damageUpdate tgt.id damage)
      match newEnemies.find? (fun e => e.id == tgt.id) with
      | none => { s with enemies := newEnemies }
      | some updatedEnemy =>
        if updatedEnemy.health ≤ 0 then
          -- Enemy defeated - final words
          let deathCry := sendEnemyToLLM updatedEnemy .death netDeath rF1
          let expGained : ℤ := 15 + updatedEnemy.damage
          let goldGained : ℤ := (rGold % 20 : ℕ) + 10
          let p := s.player
          { s with
            enemies := newEnemies.map (defeatUpdate tgt.id)
            player := { p with
              experience := p.experience + expGained
              level := if p.experience + expGained ≥ p.level * 100
                       then p.level + 1 else p.level
              gold := p.gold + goldGained }
            message := tgt.name ++ ": " ++ deathCry ++ "\n\n" ++ tgt.name
              ++ " defeated! Gained " ++ toString expGained ++ " XP and "
              ++ toString goldGained ++ " gold!" ++ emotionMessage
            inCombat := none
            enemyTalking := false }
        else
          -- Enemy takes damage and responds, then counter-attacks after 2s
          let hurtResponse := sendEnemyToLLM updatedEnemy .defend netHurt rF2
          let counter := counterEmotionMod updatedEnemy.damage ec
          let attackResponse := sendEnemyToLLM updatedEnemy .attack netAttack rF3
          let p := s.player
          { s with
            enemies := newEnemies
            player := { p with health := max 0 (p.health - counter.1) }
            message := "You hit for " ++ toString damage ++ " damage!"
              ++ emotionMessage ++ "\n" ++ updatedEnemy.name ++ ": "
              ++ hurtResponse ++ "\n\n" ++ updatedEnemy.name ++ ": "
              ++ attackResponse ++ "\n" ++ updatedEnemy.name
              ++ " hits you for " ++ toString counter.1 ++ "!" ++ counter.2
            enemyTalking := false }

/-- `flee` from `src/hooks/useCombatSystem.ts` (lines 180-190). -/
def flee (s : GameState) : GameState :=
  { s with
    inCombat := none
    enemyTalking := false
    message := "You fled from combat!"
    player := { s.player with
      x := max 0 (s.player.x - 50)
      y := max 0 (s.player.y - 50) } }

/-- The catalog of sellable item names captured by the sell-intent regular
expression in `src/hooks/useTradingSystem.ts` (line 32), in alternation
order: `magic sword|ancient rune|silver ring|health potion`. -/
def sellCatalog : List Str :=
  ["magic sword".toList, "ancient rune".toList,
   "silver ring".toList, "health potion".toList]

/-- Lazy expansion of `buy.*?(<catalog alternation>)`: starting at the current
position, find the earliest position at which a catalog item starts (trying
the alternatives in listed order at each position); `.` does not cross a line
terminator. Returns the captured item. -/
def findItemFrom : Str → Option Str
  | [] => none
  | c :: t =>
      match sellCatalog.find? (fun it => it.isPrefixOf (c :: t)) with
      | some it => some it
      | none => if c = '\n' ∨ c = '\r' then none else findItemFrom t

/-- Leftmost match of `/sell|trade|buy.*?(magic sword|ancient rune|silver
ring|health potion)/i` against the (already lowercased) input, as used in
`src/hooks/useTradingSystem.ts` (lines 29-33). `none` = no match;
`some none` = matched via the bare `sell`/`trade` alternative (capture group
undefined); `some (some it)` = matched via the `buy.*?(...)` alternative with
captured item `it`. -/
def scanSellIntent : Str → Option (Option Str)
  | [] => none
  | c :: t =>
      if "sell".toList.isPrefixOf (c :: t) then some none
      else if "trade".toList.isPrefixOf (c :: t) then some none
      else if "buy".toList.isPrefixOf (c :: t) then
        match findItemFrom ((c :: t).drop 3) with
        | some it => some (some it)
        | none => scanSellIntent t
      else scanSellIntent t

/-- `itemPrices` from `src/data/itemPrices.ts`; `none` models a missing
property (which is falsy, like a price of 0 would be — no catalog price is
0). -/
def itemPrices (item : Str) : Option ℤ :=
  if item = "Magic Sword".toList then some 100
  else if item = "Ancient Rune".toList then some 75
  else if item = "Silver Ring".toList then some 50
  else if item = "Health Potion".toList then some 25
  else none

/-- Emotion-based price adjustment from `sendToLLM` in
`src/hooks/useTradingSystem.ts` (lines 43-62): final price and the flavour
suffix of the merchant's confirmation. -/
def tradeEmotionMod (price : ℤ) (ec : Option EmotionContext) : ℤ × String :=
  match activeDescription ec with
  | none => (price, "")
  | some d0 =>
      let d := d0.map Char.toLower
      if containsSub "sad".toList d || containsSub "melancholy".toList d then
        (jsRound ((price : ℚ) * (11/10)),
         " I can see you're going through a tough time, so I'll give you a little extra.")
      else if containsSub "frustrated".toList d || containsSub "angry".toList d then
        (jsRound ((price : ℚ) * (115/100)),
         " You seem upset, friend. Let me offer you a fair deal to brighten your day.")
      else if containsSub "happy".toList d || containsSub "cheerful".toList d then
        (price, " I love dealing with happy customers!")
      else if containsSub "fearful".toList d || containsSub "anxious".toList d then
        (jsRound ((price : ℚ) * (105/100)),
         " Don't worry, you're safe here. I'll take good care of you.")
      else (price, "")

/-- Outcome of one `sendToLLM` call of the trading hook: a deterministic sale
(no network call), a synthesized refusal (no network call), or fall-through
to the network request. -/
inductive TradeReply where
  | sale (itemToSell : Str) (finalPrice : ℤ)
  | refusal
  | network
deriving DecidableEq

/-- `sendToLLM` from `src/hooks/useTradingSystem.ts` (lines 19-99), restricted
to its synchronous trading side-channel: returns the updated player and which
reply path was taken. The regex runs on `userInput.toLowerCase()`; the
captured group (already lowercase) defaults to the empty string
(`sellMatch[1]?.toLowerCase() || ""`); the inventory search keeps the first
item whose lowercased name contains the captured text; a completed sale
removes every inventory entry strictly equal to the sold item
(`filter(item !== itemToSell)`) and credits the adjusted price. -/
def sendToLLMTrading (userInput : Str) (npcType : String) (p : Player)
    (ec : Option EmotionContext) : Player × TradeReply :=
  if npcType = "trader" then
    match scanSellIntent (userInput.map Char.toLower) with
    | some capture =>
        let captured : Str := (capture.getD []).map Char.toLower
        match p.inventory.find?
            (fun item => containsSub captured (item.map Char.toLower)) with
        | some itemToSell =>
            match itemPrices itemToSell with
            | some price =>
                let adj := tradeEmotionMod price ec
                ({ p with
                    inventory := p.inventory.filter (fun item => item != itemToSell)
                    gold := p.gold + adj.1 },
                 .sale itemToSell adj.1)
            | none => if capture.isSome then (p, .refusal) else (p, .network)
        | none => if capture.isSome then (p, .refusal) else (p, .network)
    | none => (p, .network)
  else (p, .network)

/-- `EmotionData` from `src/services/emotionDetectionService.ts`; the
`allEmotions` score record is modelled as an association list. -/
structure EmotionData where
  primary : String
  confidence : ℚ
  allEmotions : List (String × ℚ)
  timestamp : ℤ
deriving DecidableEq

/-- The "no sample" branch of `updateEmotionHistory` in
`src/services/emotionDetectionService.ts` (lines 334-347): on a tick with no
detected emotion, multiply the smoothed confidence by 0.8 and clear the
smoothed sample to null once the decayed confidence drops below 0.2. -/
def fadeSmoothed : Option EmotionData → Option EmotionData
  | none => none
  | some e =>
      let c := e.confidence * (8/10)
      if c < 2/10 then none else some { e with confidence := c }

/-- Entity categories of `src/utils/proceduralPlacement.ts`. -/
inductive EntityType where
  | npc
  | enemy
  | treasure
deriving DecidableEq

/-- `PlacementConstraint` from `src/utils/proceduralPlacement.ts`; zones are
circles given by centre coordinates and radius. -/
structure Zone where
  x : ℝ
  y : ℝ
  radius : ℝ

/-- `PlacementConstraint` record. -/
structure PlacementConstraint where
  minDistanceFromPlayer : ℝ
  minDistanceBetweenEntities : ℝ
  safeZones : List Zone
  dangerZones : List Zone

/-- `PlacementRule` record (only the fields `isValidPosition` reads). -/
structure PlacementRule where
  entityType : EntityType
  minDistance : Option ℝ
  avoidTypes : Option (List EntityType)

/-- Entries of the `placedPositions` accumulator. -/
structure PlacedPos where
  x : ℝ
  y : ℝ
  type : EntityType
  id : String

/-- Euclidean distance helper `distance` from `proceduralPlacement.ts`. -/
noncomputable def pdist (p q : ℝ × ℝ) : ℝ :=
  Real.sqrt ((p.1 - q.1) ^ 2 + (p.2 - q.2) ^ 2)

/-- The separation threshold applied against one already-placed entity
(lines 132-140): the rule's `minDistance || 100` when the placed entity's
category is in this rule's avoid-list, the constraint's general minimum
separation otherwise. `minDistance || 100` falls back to 100 both when the
field is absent and when it is 0 (falsy). -/
noncomputable def avoidThreshold (c : PlacementConstraint) (rule : PlacementRule)
    (t : EntityType) : ℝ :=
  match rule.avoidTypes with
  | some l =>
      if t ∈ l then
        match rule.minDistance with
        | some d => if d = 0 then 100 else d
        | none => 100
      else c.minDistanceBetweenEntities
  | none => c.minDistanceBetweenEntities

/-- The `inSafeZone` test of `isValidPosition` (lines 119-121). -/
def inSafeZone (c : PlacementConstraint) (pos : ℝ × ℝ) : Prop :=
  ∃ z ∈ c.safeZones, pdist pos (z.x, z.y) < z.radius

/-- `isValidPosition` from `src/utils/proceduralPlacement.ts` (lines 110-143),
as the conjunction of the negations of its early-return rejections: the
candidate is accepted iff it is not nearer the player spawn (50,50) than
`minDistanceFromPlayer`, the category-specific safe-zone policy holds (NPCs
inside some safe zone, enemies inside none, treasures unconstrained), and no
already-placed entity is nearer than its separation threshold. -/
def isValidPosition (c : PlacementConstraint) (placed : List PlacedPos)
    (pos : ℝ × ℝ) (rule : PlacementRule) : Prop :=
  ¬ (pdist pos (50, 50) < c.minDistanceFromPlayer) ∧
  ¬ (rule.entityType = .npc ∧ ¬ inSafeZone c pos) ∧
  ¬ (rule.entityType = .enemy ∧ inSafeZone c pos) ∧
  ¬ (∃ p ∈ placed, pdist pos (p.x, p.y) < avoidThreshold c rule p.type)

/-- A sample player used by concrete witness instances. -/
def samplePlayer : Player :=
  { x := 400, y := 300, size := 20, health := 100, maxHealth := 100,
    experience := 0, level := 2, inventory := [], gold := 50 }

/-- A sample enemy used by concrete witness instances; its health of 30 makes
a level-2 emotionless attack (damage 30) land it at exactly 0. -/
def sampleEnemy : Enemy :=
  { id := "goblin1", x := 100, y := 100, size := 25, health := 30,
    maxHealth := 60, damage := 10, color := "#33aa33", name := "Goblin",
    personality := "sneaky", battleCries := ["Grr!"], defeated := false }

/-- An active, non-talking combat state over the sample enemy. -/
def sampleCombatState : GameState :=
  { player := samplePlayer, enemies := [sampleEnemy],
    inCombat := some sampleEnemy, enemyTalking := false, message := "" }

/-- A player one kill away from crossing several level thresholds at once. -/
def cascadePlayer : Player := { samplePlayer with level := 1, experience := 0 }

/-- An enemy whose defeat yields 515 experience, far past several level
thresholds. -/
def cascadeEnemy : Enemy := { sampleEnemy with damage := 500, health := 10 }

/-- Combat state for the multi-threshold level-up check. -/
def cascadeState : GameState :=
  { player := cascadePlayer, enemies := [cascadeEnemy],
    inCombat := some cascadeEnemy, enemyTalking := false, message := "" }

/-- A player whose only inventory entry is a Health Potion. -/
def potionPlayer : Player :=
  { samplePlayer with inventory := ["Health Potion".toList], gold := 5 }

/-- A detected-sad emotion context as produced by the emotion pipeline. -/
def sadEC : Option EmotionContext :=
  some { emotionDescription := some "sad".toList
         emotionContext := some "The player appears clearly sad".toList
         isEmotionActive := true }

/-- A player holding two identical Magic Swords. -/
def dupPlayer : Player :=
  { samplePlayer with
    inventory := ["Magic Sword".toList, "Magic Sword".toList], gold := 0 }

/-- A player whose only inventory entry is one Magic Sword. -/
def swordPlayer : Player :=
  { samplePlayer with inventory := ["Magic Sword".toList], gold := 0 }

/-- Constraints used by the concrete placement witness. -/
def witnessConstraint : PlacementConstraint :=
  { minDistanceFromPlayer := 80, minDistanceBetweenEntities := 0,
    safeZones := [], dangerZones := [] }

/-- An enemy placement rule with no avoid-list. -/
def enemyRule : PlacementRule :=
  { entityType := .enemy, minDistance := none, avoidTypes := none }

end LlmGame

namespace LlmGame

section CombatTheorems

theorem damageUpdate_id (tid : String) (D : ℤ) (e : Enemy) :
    (damageUpdate tid D e).id = e.id := by
  unfold damageUpdate; split <;> rfl

theorem damageUpdate_damage (tid : String) (D : ℤ) (e : Enemy) :
    (damageUpdate tid D e).damage = e.damage := by
  unfold damageUpdate; split <;> rfl

theorem defeatUpdate_id (tid : String) (e : Enemy) :
    (defeatUpdate tid e).id = e.id := by
  unfold defeatUpdate; split <;> rfl

theorem find?_damageUpdate (l : List Enemy) (tid : String) (D : ℤ) :
    (l.map (damageUpdate tid D)).find? (fun e => e.id == tid)
      = (l.find? (fun e => e.id == tid)).map (damageUpdate tid D) := by
  rw [List.find?_map]
  have hp : ((fun e : Enemy => e.id == tid) ∘ damageUpdate tid D)
      = fun e : Enemy => e.id == tid := by
    funext e
    simp [Function.comp, damageUpdate_id]
  rw [hp]

theorem find?_defeatUpdate (l : List Enemy) (tid : String) :
    (l.map (defeatUpdate tid)).find? (fun e => e.id == tid)
      = (l.find? (fun e => e.id == tid)).map (defeatUpdate tid) := by
  rw [List.find?_map]
  have hp : ((fun e : Enemy => e.id == tid) ∘ defeatUpdate tid)
      = fun e : Enemy => e.id == tid := by
    funext e
    simp [Function.comp, defeatUpdate_id]
  rw [hp]

theorem map_health_damageUpdate (l : List Enemy) (tid : String) (D : ℤ) :
    (l.map (damageUpdate tid D)).map Enemy.health
      = l.map fun e => if e.id = tid then e.health - D else e.health := by
  induction l with
  | nil => rfl
  | cons a t ih =>
      simp only [List.map_cons, ih]
      congr 1
      unfold damageUpdate
      split <;> rfl

theorem map_health_defeatUpdate (l : List Enemy) (tid : String) :
    (l.map (defeatUpdate tid)).map Enemy.health = l.map Enemy.health := by
  induction l with
  | nil => rfl
  | cons a t ih =>
      simp only [List.map_cons, ih]
      congr 1
      unfold defeatUpdate
      split <;> rfl

/-- Net effect of a lethal `attack` on the non-message state components. -/
theorem attack_lethal_core
    (s : GameState) (tgt e0 : Enemy) (ec : Option EmotionContext)
    (nd nh na : Option String) (g r1 r2 r3 : ℕ)
    (hc : s.inCombat = some tgt) (ht : s.enemyTalking = false)
    (hfind : s.enemies.find? (fun e => e.id == tgt.id) = some e0)
    (hdead : e0.health - attackDamage s.player ec ≤ 0) :
    (attack s ec nd nh na g r1 r2 r3).player = { s.player with
        experience := s.player.experience + (15 + e0.damage)
        level := if s.player.experience + (15 + e0.damage) ≥ s.player.level * 100
                 then s.player.level + 1 else s.player.level
        gold := s.player.gold + (((g % 20 : ℕ) : ℤ) + 10) } ∧
    (attack s ec nd nh na g r1 r2 r3).enemies
      = (s.enemies.map (damageUpdate tgt.id (attackDamage s.player ec))).map
          (defeatUpdate tgt.id) ∧
    (attack s ec nd nh na g r1 r2 r3).inCombat = none ∧
    (attack s ec nd nh na g r1 r2 r3).enemyTalking = false := by
  have hid : e0.id = tgt.id := by simpa using List.find?_some hfind
  have hue : (s.enemies.map
        (damageUpdate tgt.id (attackDamage s.player ec))).find?
        (fun e => e.id == tgt.id)
      = some (damageUpdate tgt.id (attackDamage s.player ec) e0) := by
    rw [find?_damageUpdate, hfind]
    rfl
  have hueh : (damageUpdate tgt.id (attackDamage s.player ec) e0).health
      = e0.health - attackDamage s.player ec := by
    unfold damageUpdate
    rw [if_pos hid]
  unfold attack
  simp only [hc, ht, Bool.false_eq_true, if_false, hue, hueh, if_pos hdead,
    damageUpdate_damage]
  exact ⟨trivial, trivial, trivial, trivial⟩

/-- Fields other than the displayed message never depend on the dialogue
network outcomes nor on the random fallback battle-cry indices. -/
theorem attack_oracle_invariance (s : GameState) (ec : Option EmotionContext)
    (nd nd' nh nh' na na' : Option String) (g r1 r1' r2 r2' r3 r3' : ℕ) :
    (attack s ec nd nh na g r1 r2 r3).player
        = (attack s ec nd' nh' na' g r1' r2' r3').player ∧
    (attack s ec nd nh na g r1 r2 r3).enemies
        = (attack s ec nd' nh' na' g r1' r2' r3').enemies ∧
    (attack s ec nd nh na g r1 r2 r3).inCombat
        = (attack s ec nd' nh' na' g r1' r2' r3').inCombat ∧
    (attack s ec nd nh na g r1 r2 r3).enemyTalking
        = (attack s ec nd' nh' na' g r1' r2' r3').enemyTalking := by
  unfold attack
  cases hc : s.inCombat with
  | none => exact ⟨rfl, rfl, rfl, rfl⟩
  | some tgt =>
      cases ht : s.enemyTalking with
      | true => simp
      | false =>
          simp only [Bool.false_eq_true, if_false]
          cases hf : (s.enemies.map
              (damageUpdate tgt.id (attackDamage s.player ec))).find?
              (fun e => e.id == tgt.id) with
          | none => simp [hf]
          | some ue =>
              simp only [hf]
              by_cases hd : ue.health ≤ 0
              · simp only [if_pos hd]
                exact ⟨trivial, trivial, trivial, trivial⟩
              · simp only [if_neg hd]
                exact ⟨trivial, trivial, trivial, trivial⟩

/-- C1: in an active, non-talking combat session, `attack` decreases the
targeted enemy's health by exactly
`round((20 + player.level × 5) × multiplier)` and changes no other enemy's
health; the multiplier is 1.2 for an angry/frustrated player emotion, 0.8
for fearful/anxious, 1.1 for happy/cheerful, 0.9 for sad/melancholy, and
exactly 1 when no emotion is active or the description matches none of
these (the four checks applied in that order). -/
theorem C1_attack_damage_law
    (s : GameState) (tgt : Enemy) (ec : Option EmotionContext)
    (nd nh na : Option String) (g r1 r2 r3 : ℕ)
    (hc : s.inCombat = some tgt) (ht : s.enemyTalking = false) :
    ((attack s ec nd nh na g r1 r2 r3).enemies.map Enemy.health
      = s.enemies.map fun e =>
          if e.id = tgt.id then e.health - attackDamage s.player ec
          else e.health) ∧
    attackDamage s.player ec
      = jsRound (((20 + s.player.level * 5 : ℤ) : ℚ) * (combatEmotionMod ec).1) ∧
    (activeDescription ec = none → (combatEmotionMod ec).1 = 1) ∧
    (∀ d, activeDescription ec = some d →
      ((containsSub "angry".toList (d.map Char.toLower)
          || containsSub "frustrated".toList (d.map Char.toLower)) = true →
        (combatEmotionMod ec).1 = 12/10) ∧
      ((containsSub "angry".toList (d.map Char.toLower)
          || containsSub "frustrated".toList (d.map Char.toLower)) = false →
       (containsSub "fearful".toList (d.map Char.toLower)
          || containsSub "anxious".toList (d.map Char.toLower)) = true →
        (combatEmotionMod ec).1 = 8/10) ∧
      ((containsSub "angry".toList (d.map Char.toLower)
          || containsSub "frustrated".toList (d.map Char.toLower)) = false →
       (containsSub "fearful".toList (d.map Char.toLower)
          || containsSub "anxious".toList (d.map Char.toLower)) = false →
       (containsSub "happy".toList (d.map Char.toLower)
          || containsSub "cheerful".toList (d.map Char.toLower)) = true →
        (combatEmotionMod ec).1 = 11/10) ∧
      ((containsSub "angry".toList (d.map Char.toLower)
          || containsSub "frustrated".toList (d.map Char.toLower)) = false →
       (containsSub "fearful".toList (d.map Char.toLower)
          || containsSub "anxious".toList (d.map Char.toLower)) = false →
       (containsSub "happy".toList (d.map Char.toLower)
          || containsSub "cheerful".toList (d.map Char.toLower)) = false →
       (containsSub "sad".toList (d.map Char.toLower)
          || containsSub "melancholy".toList (d.map Char.toLower)) = true →
        (combatEmotionMod ec).1 = 9/10) ∧
      ((containsSub "angry".toList (d.map Char.toLower)
          || containsSub "frustrated".toList (d.map Char.toLower)) = false →
       (containsSub "fearful".toList (d.map Char.toLower)
          || containsSub "anxious".toList (d.map Char.toLower)) = false →
       (containsSub "happy".toList (d.map Char.toLower)
          || containsSub "cheerful".toList (d.map Char.toLower)) = false →
       (containsSub "sad".toList (d.map Char.toLower)
          || containsSub "melancholy".toList (d.map Char.toLower)) = false →
        (combatEmotionMod ec).1 = 1)) := by
  refine ⟨?_, rfl, fun h => by simp [combatEmotionMod, h], fun d hd => ?_⟩
  · unfold attack
    simp only [hc, ht, Bool.false_eq_true, if_false]
    split
    · exact map_health_damageUpdate s.enemies tgt.id (attackDamage s.player ec)
    · split
      · exact (map_health_defeatUpdate _ tgt.id).trans
          (map_health_damageUpdate s.enemies tgt.id (attackDamage s.player ec))
      · exact map_health_damageUpdate s.enemies tgt.id (attackDamage s.player ec)
  · refine ⟨fun h1 => ?_, fun h1 h2 => ?_, fun h1 h2 h3 => ?_,
      fun h1 h2 h3 h4 => ?_, fun h1 h2 h3 h4 => ?_⟩
    · simp only [combatEmotionMod, hd]
      rw [if_pos h1]
    · simp only [combatEmotionMod, hd]
      rw [if_neg (by rw [h1]; exact Bool.false_ne_true), if_pos h2]
    · simp only [combatEmotionMod, hd]
      rw [if_neg (by rw [h1]; exact Bool.false_ne_true),
        if_neg (by rw [h2]; exact Bool.false_ne_true), if_pos h3]
    · simp only [combatEmotionMod, hd]
      rw [if_neg (by rw [h1]; exact Bool.false_ne_true),
        if_neg (by rw [h2]; exact Bool.false_ne_true),
        if_neg (by rw [h3]; exact Bool.false_ne_true), if_pos h4]
    · simp only [combatEmotionMod, hd]
      rw [if_neg (by rw [h1]; exact Bool.false_ne_true),
        if_neg (by rw [h2]; exact Bool.false_ne_true),
        if_neg (by rw [h3]; exact Bool.false_ne_true),
        if_neg (by rw [h4]; exact Bool.false_ne_true)]

/-- Witness for C1: a concrete level-2 emotionless attack on the sample
enemy decreases its health by exactly 30. -/
theorem C1_attack_damage_law_witness :
    sampleCombatState.inCombat = some sampleEnemy ∧
    sampleCombatState.enemyTalking = false ∧
    ((attack sampleCombatState none none none none 0 0 0 0).enemies.map
        Enemy.health
      = sampleCombatState.enemies.map fun e =>
          if e.id = sampleEnemy.id
          then e.health - attackDamage sampleCombatState.player none
          else e.health) :=
  ⟨rfl, rfl,
   (C1_attack_damage_law sampleCombatState sampleEnemy none
      none none none 0 0 0 0 rfl rfl).1⟩

/-- C2: `attack` invoked while the enemy is talking, or with no active
session, changes nothing at all: the returned state is the input state. -/
theorem C2_attack_noop_when_talking_or_inactive
    (s : GameState) (ec : Option EmotionContext)
    (nd nh na : Option String) (g r1 r2 r3 : ℕ)
    (h : s.inCombat = none ∨ s.enemyTalking = true) :
    attack s ec nd nh na g r1 r2 r3 = s := by
  rcases h with h | h
  · simp [attack, h]
  · unfold attack
    cases hc : s.inCombat with
    | none => rfl
    | some tgt => simp [h]

/-- Witness for C2: a concrete talking combat state on which `attack` is a
no-op. -/
theorem C2_attack_noop_witness :
    ({ sampleCombatState with enemyTalking := true }.inCombat = none ∨
      { sampleCombatState with enemyTalking := true }.enemyTalking = true) ∧
    attack { sampleCombatState with enemyTalking := true }
        none none none none 0 0 0 0
      = { sampleCombatState with enemyTalking := true } :=
  ⟨Or.inr rfl,
   C2_attack_noop_when_talking_or_inactive _ none none none none 0 0 0 0
     (Or.inr rfl)⟩

theorem sample_attackDamage : attackDamage samplePlayer none = 30 := by
  norm_num [attackDamage, samplePlayer, combatEmotionMod, activeDescription,
    jsRound]

theorem sampleEnemy_lands_zero :
    sampleEnemy.health - attackDamage sampleCombatState.player none ≤ 0 := by
  show sampleEnemy.health - attackDamage samplePlayer none ≤ 0
  rw [sample_attackDamage]
  decide

/-- C4: an attack that lands the targeted enemy's health at 0 or below marks
it defeated (exactly 0 counts as defeated, not surviving), adds exactly
`15 + enemy.damage` experience, adds a gold amount of the form
`randomDraw % 20 + 10` — an integer in [10, 29] — and clears the session
(victory). -/
theorem C4_lethal_attack_victory
    (s : GameState) (tgt e0 : Enemy) (ec : Option EmotionContext)
    (nd nh na : Option String) (g r1 r2 r3 : ℕ)
    (hc : s.inCombat = some tgt) (ht : s.enemyTalking = false)
    (hfind : s.enemies.find? (fun e => e.id == tgt.id) = some e0)
    (hdead : e0.health - attackDamage s.player ec ≤ 0) :
    ((attack s ec nd nh na g r1 r2 r3).enemies.find? (fun e => e.id == tgt.id)
        = some { e0 with
            health := e0.health - attackDamage s.player ec
            defeated := true }) ∧
    ((attack s ec nd nh na g r1 r2 r3).player.experience
        = s.player.experience + (15 + e0.damage)) ∧
    ((attack s ec nd nh na g r1 r2 r3).player.gold
        = s.player.gold + (((g % 20 : ℕ) : ℤ) + 10)) ∧
    (10 ≤ ((g % 20 : ℕ) : ℤ) + 10 ∧ ((g % 20 : ℕ) : ℤ) + 10 ≤ 29) ∧
    ((attack s ec nd nh na g r1 r2 r3).inCombat = none) := by
  obtain ⟨hp, he, hcmb, -⟩ :=
    attack_lethal_core s tgt e0 ec nd nh na g r1 r2 r3 hc ht hfind hdead
  have hid : e0.id = tgt.id := by simpa using List.find?_some hfind
  have hb := Nat.mod_lt g (show 0 < 20 by norm_num)
  refine ⟨?_, by rw [hp], by rw [hp], by constructor <;> omega, hcmb⟩
  rw [he, find?_defeatUpdate, find?_damageUpdate, hfind]
  simp [defeatUpdate, damageUpdate, hid]

/-- Witness for C4 at the boundary: the sample level-2 emotionless attack
lands the health-30 enemy at exactly 0, which counts as defeat and victory. -/
theorem C4_lethal_attack_victory_witness :
    sampleCombatState.inCombat = some sampleEnemy ∧
    sampleCombatState.enemyTalking = false ∧
    sampleCombatState.enemies.find? (fun e => e.id == sampleEnemy.id)
      = some sampleEnemy ∧
    sampleEnemy.health - attackDamage sampleCombatState.player none ≤ 0 ∧
    ((attack sampleCombatState none none none none 7 0 0 0).player.experience
      = sampleCombatState.player.experience + (15 + sampleEnemy.damage)) ∧
    (attack sampleCombatState none none none none 7 0 0 0).inCombat = none :=
  ⟨rfl, rfl, rfl, sampleEnemy_lands_zero,
   (C4_lethal_attack_victory sampleCombatState sampleEnemy sampleEnemy none
      none none none 7 0 0 0 rfl rfl rfl sampleEnemy_lands_zero).2.1,
   (C4_lethal_attack_victory sampleCombatState sampleEnemy sampleEnemy none
      none none none 7 0 0 0 rfl rfl rfl sampleEnemy_lands_zero).2.2.2.2⟩

/-- C3: on a lethal attack the mechanical outcomes — experience gain, gold
gain, level change, defeat marking, session clearing — are applied with the
death-dialogue network request failed (`netDeath = none`), and the player,
enemies and session components of the result are identical whatever the
death-dialogue request returns: a dialogue failure only changes the displayed
message, never the mechanical state. -/
theorem C3_rewards_survive_dialogue_failure
    (s : GameState) (tgt e0 : Enemy) (ec : Option EmotionContext)
    (nh na : Option String) (g r1 r2 r3 : ℕ)
    (hc : s.inCombat = some tgt) (ht : s.enemyTalking = false)
    (hfind : s.enemies.find? (fun e => e.id == tgt.id) = some e0)
    (hdead : e0.health - attackDamage s.player ec ≤ 0) :
    ((attack s ec none nh na g r1 r2 r3).player.experience
        = s.player.experience + (15 + e0.damage)) ∧
    ((attack s ec none nh na g r1 r2 r3).player.gold
        = s.player.gold + (((g % 20 : ℕ) : ℤ) + 10)) ∧
    ((attack s ec none nh na g r1 r2 r3).player.level
        = if s.player.experience + (15 + e0.damage) ≥ s.player.level * 100
          then s.player.level + 1 else s.player.level) ∧
    ((attack s ec none nh na g r1 r2 r3).enemies.find?
        (fun e => e.id == tgt.id)
        = some { e0 with
            health := e0.health - attackDamage s.player ec
            defeated := true }) ∧
    ((attack s ec none nh na g r1 r2 r3).inCombat = none) ∧
    (∀ txt : String,
      (attack s ec (some txt) nh na g r1 r2 r3).player
          = (attack s ec none nh na g r1 r2 r3).player ∧
      (attack s ec (some txt) nh na g r1 r2 r3).enemies
          = (attack s ec none nh na g r1 r2 r3).enemies ∧
      (attack s ec (some txt) nh na g r1 r2 r3).inCombat
          = (attack s ec none nh na g r1 r2 r3).inCombat) := by
  obtain ⟨hp, he, hcmb, -⟩ :=
    attack_lethal_core s tgt e0 ec none nh na g r1 r2 r3 hc ht hfind hdead
  have hid : e0.id = tgt.id := by simpa using List.find?_some hfind
  refine ⟨by rw [hp], by rw [hp], by rw [hp], ?_, hcmb, fun txt => ?_⟩
  · rw [he, find?_defeatUpdate, find?_damageUpdate, hfind]
    simp [defeatUpdate, damageUpdate, hid]
  · obtain ⟨h1, h2, h3, -⟩ := attack_oracle_invariance s ec
      (some txt) none nh nh na na g r1 r1 r2 r2 r3 r3
    exact ⟨h1, h2, h3⟩

/-- Witness for C3: with the network oracle reporting failure (`none`), the
concrete lethal attack still pays out experience and clears the session. -/
theorem C3_rewards_survive_dialogue_failure_witness :
    sampleCombatState.inCombat = some sampleEnemy ∧
    sampleEnemy.health - attackDamage sampleCombatState.player none ≤ 0 ∧
    ((attack sampleCombatState none none none none 3 0 0 0).player.experience
      = sampleCombatState.player.experience + (15 + sampleEnemy.damage)) ∧
    (attack sampleCombatState none (some "You win this time!") none none 3 0 0 0).player
      = (attack sampleCombatState none none none none 3 0 0 0).player :=
  ⟨rfl, sampleEnemy_lands_zero,
   (C3_rewards_survive_dialogue_failure sampleCombatState sampleEnemy
      sampleEnemy none none none 3 0 0 0 rfl rfl rfl
      sampleEnemy_lands_zero).1,
   ((C3_rewards_survive_dialogue_failure sampleCombatState sampleEnemy
      sampleEnemy none none none 3 0 0 0 rfl rfl rfl
      sampleEnemy_lands_zero).2.2.2.2.2 "You win this time!").1⟩

/-- C5: the victory reward applies exactly one level-up when
`experience + gained ≥ level × 100` and none otherwise; the level never grows
by more than one in a single attack even when the gain crosses several
thresholds. -/
theorem C5_single_level_up
    (s : GameState) (tgt e0 : Enemy) (ec : Option EmotionContext)
    (nd nh na : Option String) (g r1 r2 r3 : ℕ)
    (hc : s.inCombat = some tgt) (ht : s.enemyTalking = false)
    (hfind : s.enemies.find? (fun e => e.id == tgt.id) = some e0)
    (hdead : e0.health - attackDamage s.player ec ≤ 0) :
    ((attack s ec nd nh na g r1 r2 r3).player.level
        = if s.player.experience + (15 + e0.damage) ≥ s.player.level * 100
          then s.player.level + 1 else s.player.level) ∧
    s.player.level ≤ (attack s ec nd nh na g r1 r2 r3).player.level ∧
    (attack s ec nd nh na g r1 r2 r3).player.level ≤ s.player.level + 1 := by
  obtain ⟨hp, -, -, -⟩ :=
    attack_lethal_core s tgt e0 ec nd nh na g r1 r2 r3 hc ht hfind hdead
  refine ⟨by rw [hp], ?_, ?_⟩ <;> rw [hp] <;> simp only [] <;>
    split_ifs <;> omega

theorem cascade_attackDamage : attackDamage cascadePlayer none = 25 := by
  norm_num [attackDamage, cascadePlayer, samplePlayer, combatEmotionMod,
    activeDescription, jsRound]

theorem cascadeEnemy_dead :
    cascadeEnemy.health - attackDamage cascadeState.player none ≤ 0 := by
  show cascadeEnemy.health - attackDamage cascadePlayer none ≤ 0
  rw [cascade_attackDamage]
  decide

/-- Witness for C5: a 515-experience kill from level 1 (thresholds at 100,
200, ... all crossed) still raises the level by exactly one. -/
theorem C5_single_level_up_witness :
    cascadeState.inCombat = some cascadeEnemy ∧
    cascadeEnemy.health - attackDamage cascadeState.player none ≤ 0 ∧
    ((attack cascadeState none none none none 0 0 0 0).player.level
      = if cascadeState.player.experience + (15 + cascadeEnemy.damage)
          ≥ cascadeState.player.level * 100
        then cascadeState.player.level + 1 else cascadeState.player.level) ∧
    (attack cascadeState none none none none 0 0 0 0).player.level
      ≤ cascadeState.player.level + 1 :=
  ⟨rfl, cascadeEnemy_dead,
   (C5_single_level_up cascadeState cascadeEnemy cascadeEnemy none
      none none none 0 0 0 0 rfl rfl rfl cascadeEnemy_dead).1,
   (C5_single_level_up cascadeState cascadeEnemy cascadeEnemy none
      none none none 0 0 0 0 rfl rfl rfl cascadeEnemy_dead).2.2⟩

end CombatTheorems

section TradingTheorems

theorem containsSub_nil_left (l : Str) : containsSub [] l = true := by
  cases l <;> rfl

theorem containsSub_of_isPrefixOf {n l : Str} (h : n.isPrefixOf l = true) :
    containsSub n l = true := by
  cases l with
  | nil =>
      cases n with
      | nil => rfl
      | cons a t => simp [List.isPrefixOf] at h
  | cons c t =>
      simp only [containsSub, h, Bool.true_or]

theorem containsSub_cons_of_tail {n : Str} {c : Char} {t : Str}
    (h : containsSub n t = true) : containsSub n (c :: t) = true := by
  simp only [containsSub, h, Bool.or_true]

theorem containsSub_of_drop {n l : Str} (k : ℕ)
    (h : containsSub n (l.drop k) = true) : containsSub n l = true := by
  induction l generalizing k with
  | nil => simpa using h
  | cons c t ih =>
      cases k with
      | zero => simpa using h
      | succ k' => exact containsSub_cons_of_tail (ih k' h)

theorem findItemFrom_none {m : Str}
    (h : ∀ it ∈ sellCatalog, containsSub it m = false) :
    findItemFrom m = none := by
  induction m with
  | nil => rfl
  | cons c t ih =>
      have hf : sellCatalog.find? (fun it => it.isPrefixOf (c :: t)) = none := by
        rw [List.find?_eq_none]
        intro it hmem hpre
        have hc := h it hmem
        rw [containsSub_of_isPrefixOf hpre] at hc
        exact Bool.noConfusion hc
      have h' : ∀ it ∈ sellCatalog, containsSub it t = false := by
        intro it hm
        have hc := h it hm
        simp only [containsSub] at hc
        exact (Bool.or_eq_false_iff.mp hc).2
      simp only [findItemFrom, hf]
      split
      · rfl
      · exact ih h'

theorem scanSellIntent_keyword : ∀ l : Str,
    (containsSub "sell".toList l = true ∨ containsSub "trade".toList l = true) →
    (∀ it ∈ sellCatalog, containsSub it l = false) →
    scanSellIntent l = some none := by
  intro l
  induction l with
  | nil =>
      intro hk _
      rcases hk with h | h <;> exact absurd h (by decide)
  | cons c t ih =>
      intro hk hit
      unfold scanSellIntent
      by_cases h1 : "sell".toList.isPrefixOf (c :: t) = true
      · rw [if_pos h1]
      · have h1' : "sell".toList.isPrefixOf (c :: t) = false := by
          revert h1
          cases "sell".toList.isPrefixOf (c :: t) <;> simp
        rw [if_neg h1]
        by_cases h2 : "trade".toList.isPrefixOf (c :: t) = true
        · rw [if_pos h2]
        · have h2' : "trade".toList.isPrefixOf (c :: t) = false := by
            revert h2
            cases "trade".toList.isPrefixOf (c :: t) <;> simp
          rw [if_neg h2]
          have hit' : ∀ it ∈ sellCatalog, containsSub it t = false := by
            intro it hm
            have hc := hit it hm
            simp only [containsSub] at hc
            exact (Bool.or_eq_false_iff.mp hc).2
          have hk' : containsSub "sell".toList t = true ∨
              containsSub "trade".toList t = true := by
            rcases hk with h | h
            · left
              simp only [containsSub, h1', Bool.false_or] at h
              exact h
            · right
              simp only [containsSub, h2', Bool.false_or] at h
              exact h
          have hrec := ih hk' hit'
          by_cases h3 : "buy".toList.isPrefixOf (c :: t) = true
          · rw [if_pos h3]
            have hnone : findItemFrom ((c :: t).drop 3) = none := by
              apply findItemFrom_none
              intro it hm
              cases hb : containsSub it ((c :: t).drop 3) with
              | false => rfl
              | true =>
                  have := containsSub_of_drop 3 hb
                  rw [hit it hm] at this
                  exact absurd this Bool.false_ne_true
            simp only [hnone]
            exact hrec
          · rw [if_neg h3]
            exact hrec

/-- C10: a trader utterance containing the bare keyword "sell" or "trade"
and naming no catalog item still completes a sale: the alternation of the
sell-intent pattern matches the keyword with an empty item capture, the empty
capture is contained in every inventory entry, so the first inventory item is
selected, its entries are removed and its price (emotion-adjusted) is
credited — no network call happens. -/
theorem C10_bare_keyword_sells_first_item
    (u : Str) (p : Player) (ec : Option EmotionContext)
    (it0 : Str) (rest : List Str) (price : ℤ)
    (hk : containsSub "sell".toList (u.map Char.toLower) = true ∨
          containsSub "trade".toList (u.map Char.toLower) = true)
    (hno : ∀ it ∈ sellCatalog, containsSub it (u.map Char.toLower) = false)
    (hinv : p.inventory = it0 :: rest)
    (hprice : itemPrices it0 = some price) :
    sendToLLMTrading u "trader" p ec
      = ({ p with
            inventory := (it0 :: rest).filter (fun item => item != it0)
            gold := p.gold + (tradeEmotionMod price ec).1 },
         .sale it0 (tradeEmotionMod price ec).1) := by
  unfold sendToLLMTrading
  rw [if_pos rfl, scanSellIntent_keyword _ hk hno]
  simp only [hinv]
  have hfind : List.find? (fun item =>
      containsSub ((Option.getD (none : Option Str) []).map Char.toLower)
        (item.map Char.toLower)) (it0 :: rest) = some it0 :=
    List.find?_cons_of_pos rest (containsSub_nil_left _)
  rw [hfind]
  simp only [hprice]

/-- Witness for C10: "i want to sell something" names no item, yet the
Health Potion — the first (and only) inventory entry — is sold. -/
theorem C10_bare_keyword_sells_first_item_witness :
    (containsSub "sell".toList
        ("i want to sell something".toList.map Char.toLower) = true ∨
      containsSub "trade".toList
        ("i want to sell something".toList.map Char.toLower) = true) ∧
    (∀ it ∈ sellCatalog,
      containsSub it ("i want to sell something".toList.map Char.toLower)
        = false) ∧
    sendToLLMTrading "i want to sell something".toList "trader" potionPlayer
        none
      = ({ potionPlayer with
            inventory := ("Health Potion".toList :: []).filter
              (fun item => item != "Health Potion".toList)
            gold := potionPlayer.gold + (tradeEmotionMod 25 none).1 },
         .sale "Health Potion".toList (tradeEmotionMod 25 none).1) :=
  ⟨Or.inl (by decide), by decide,
   C10_bare_keyword_sells_first_item "i want to sell something".toList
     potionPlayer none "Health Potion".toList [] 25
     (Or.inl (by decide)) (by decide) rfl rfl⟩

/-- The sad/melancholy price bonus of the trading hook. -/
theorem tradeEmotionMod_sad (price : ℤ) (ec : Option EmotionContext) (d : Str)
    (hd : activeDescription ec = some d)
    (h1 : (containsSub "sad".toList (d.map Char.toLower)
        || containsSub "melancholy".toList (d.map Char.toLower)) = true) :
    (tradeEmotionMod price ec).1 = jsRound ((price : ℚ) * (11/10)) := by
  simp only [tradeEmotionMod, hd]
  rw [if_pos h1]

/-- Counterexample for C6: selling "magic sword" while sad with two Magic
Swords in inventory removes BOTH entries (the code filters on strict
equality), not exactly one — the claimed post-sale inventory of one
remaining sword is wrong — while the gold credit is 110 as claimed. -/
theorem C6_sale_removes_all_duplicates_cex :
    (sendToLLMTrading "sell magic sword".toList "trader" dupPlayer
        sadEC).1.inventory = [] ∧
    (sendToLLMTrading "sell magic sword".toList "trader" dupPlayer
        sadEC).1.gold = 110 ∧
    ([] : List Str) ≠ ["Magic Sword".toList] := by
  have hs : scanSellIntent ("sell magic sword".toList.map Char.toLower)
      = some none := by decide
  have hfind : dupPlayer.inventory.find?
      (fun item => containsSub [] (item.map Char.toLower))
      = some "Magic Sword".toList := by decide
  unfold sendToLLMTrading
  rw [if_pos rfl, hs]
  simp only [Option.getD_none, List.map_nil, hfind,
    show itemPrices "Magic Sword".toList = some 100 from rfl]
  refine ⟨by decide, ?_, by decide⟩
  show dupPlayer.gold + (tradeEmotionMod 100 sadEC).1 = 110
  rw [tradeEmotionMod_sad 100 sadEC "sad".toList (by decide) (by decide)]
  norm_num [jsRound, dupPlayer, samplePlayer]

/-- C6 (amended): when the sell-intent pattern matches a trader utterance,
the sale is resolved deterministically without any network call against the
FIRST inventory item whose lowercased name contains the captured item text
(the capture is empty when the bare `sell`/`trade` keyword matched, so the
first inventory item is selected); ALL inventory entries equal to that item
are removed (not exactly one), and the player is credited
`round(price × multiplier)` where the sad/melancholy multiplier is 1.1 — for
a Magic Sword at price 100 sold while sad, `round(100 × 1.1) = 110` gold. -/
theorem C6_trade_sale_amended
    (u : Str) (p : Player) (ec : Option EmotionContext)
    (cap : Option Str) (it : Str) (price : ℤ)
    (hscan : scanSellIntent (u.map Char.toLower) = some cap)
    (hfind : p.inventory.find?
        (fun item => containsSub ((cap.getD []).map Char.toLower)
          (item.map Char.toLower)) = some it)
    (hprice : itemPrices it = some price) :
    sendToLLMTrading u "trader" p ec
      = ({ p with
            inventory := p.inventory.filter (fun item => item != it)
            gold := p.gold + (tradeEmotionMod price ec).1 },
         .sale it (tradeEmotionMod price ec).1) ∧
    (∀ d, activeDescription ec = some d →
      (containsSub "sad".toList (d.map Char.toLower)
         || containsSub "melancholy".toList (d.map Char.toLower)) = true →
      (tradeEmotionMod price ec).1 = jsRound ((price : ℚ) * (11/10))) ∧
    jsRound ((100 : ℚ) * (11/10)) = 110 := by
  refine ⟨?_, fun d hd h1 => tradeEmotionMod_sad price ec d hd h1,
    by norm_num [jsRound]⟩
  unfold sendToLLMTrading
  rw [if_pos rfl, hscan]
  simp only [hfind, hprice]

/-- Witness for C6 (amended): the spec scenario — selling the Magic Sword
while sad credits exactly 110 gold. -/
theorem C6_trade_sale_amended_witness :
    scanSellIntent ("sell magic sword".toList.map Char.toLower)
      = some none ∧
    swordPlayer.inventory.find?
        (fun item => containsSub
          (((none : Option Str).getD []).map Char.toLower)
          (item.map Char.toLower)) = some "Magic Sword".toList ∧
    itemPrices "Magic Sword".toList = some 100 ∧
    sendToLLMTrading "sell magic sword".toList "trader" swordPlayer sadEC
      = ({ swordPlayer with
            inventory := swordPlayer.inventory.filter
              (fun item => item != "Magic Sword".toList)
            gold := swordPlayer.gold + (tradeEmotionMod 100 sadEC).1 },
         .sale "Magic Sword".toList (tradeEmotionMod 100 sadEC).1) ∧
    (tradeEmotionMod 100 sadEC).1 = 110 :=
  ⟨by decide, by decide, rfl,
   (C6_trade_sale_amended "sell magic sword".toList swordPlayer sadEC none
      "Magic Sword".toList 100 (by decide) (by decide) rfl).1,
   by
    rw [(C6_trade_sale_amended "sell magic sword".toList swordPlayer sadEC
        none "Magic Sword".toList 100 (by decide) (by decide) rfl).2.1
        "sad".toList (by decide) (by decide)]
    exact (C6_trade_sale_amended "sell magic sword".toList swordPlayer sadEC
        none "Magic Sword".toList 100 (by decide) (by decide) rfl).2.2⟩

end TradingTheorems

section EmotionTheorems

/-- C7: a "no sample" tick multiplies the smoothed confidence by 0.8 and
clears the smoothed sample to null once the decayed confidence drops below
0.2; starting from confidence 0.5 the smoothed sample survives 4 consecutive
"no sample" ticks (at confidence 0.2048) and becomes null on the 5th —
within `ceil(log(0.2/0.5)/log(0.8)) = 5` ticks. -/
theorem C7_emotion_decay_clears_in_five (e : EmotionData)
    (h : e.confidence = 1/2) :
    (∀ s : EmotionData, ¬ s.confidence * (8/10) < 2/10 →
        fadeSmoothed (some s) = some { s with confidence := s.confidence * (8/10) }) ∧
    (∀ s : EmotionData, s.confidence * (8/10) < 2/10 →
        fadeSmoothed (some s) = none) ∧
    fadeSmoothed (fadeSmoothed (fadeSmoothed (fadeSmoothed (some e))))
      = some { e with confidence := 128/625 } ∧
    fadeSmoothed (fadeSmoothed (fadeSmoothed (fadeSmoothed (fadeSmoothed (some e)))))
      = none := by
  obtain ⟨pr, cf, al, ts⟩ := e
  simp only at h
  subst h
  refine ⟨fun s hs => ?_, fun s hs => ?_, ?_, ?_⟩
  · simp [fadeSmoothed, if_neg hs]
  · simp [fadeSmoothed, if_pos hs]
  · norm_num [fadeSmoothed]
  · norm_num [fadeSmoothed]

/-- Witness for C7 at a concrete smoothed sample of confidence 0.5. -/
theorem C7_emotion_decay_witness :
    ({ primary := "happy", confidence := 1/2, allEmotions := [],
       timestamp := 0 : EmotionData }.confidence = 1/2) ∧
    fadeSmoothed (fadeSmoothed (fadeSmoothed (fadeSmoothed (fadeSmoothed
        (some { primary := "happy", confidence := 1/2, allEmotions := [],
                timestamp := 0 }))))) = none :=
  ⟨rfl,
   (C7_emotion_decay_clears_in_five
      { primary := "happy", confidence := 1/2, allEmotions := [],
        timestamp := 0 } rfl).2.2.2⟩

end EmotionTheorems

section FleeTheorems

/-- Counterexample for C9: from a player at (60, 60), the first `flee` call
displaces x by −50 but the second displaces it only by −10 (the position is
clamped at 0), so the two calls do not apply the same fixed offset and two
calls do not move the player twice the offset of one call. -/
theorem C9_flee_displacement_cex :
    (flee { sampleCombatState with
        player := { samplePlayer with x := 60, y := 60 } }).player.x
      - ({ sampleCombatState with
        player := { samplePlayer with x := 60, y := 60 } } : GameState).player.x
      = -50 ∧
    (flee (flee { sampleCombatState with
        player := { samplePlayer with x := 60, y := 60 } })).player.x
      - (flee { sampleCombatState with
        player := { samplePlayer with x := 60, y := 60 } }).player.x
      = -10 ∧
    (-10 : ℚ) ≠ -50 := by
  refine ⟨?_, ?_, by norm_num⟩ <;>
    norm_num [flee, sampleCombatState, samplePlayer]

/-- C9 (amended): every `flee` call clears the session (and clears it again,
idempotently, on a second call), leaves all enemies — hence the targeted
enemy's health and defeated flag — and the player's health unchanged, and
sets each player coordinate to `max 0 (coordinate − 50)`; in particular, when
both coordinates are at least 100 the two calls together displace the player
by exactly (−100, −100), twice the offset of one call, but below that the
displacement is clamped at 0. -/
theorem C9_flee_amended (s : GameState) :
    (flee s).inCombat = none ∧
    (flee (flee s)).inCombat = none ∧
    (flee s).enemyTalking = false ∧
    (flee s).enemies = s.enemies ∧
    (flee s).player.health = s.player.health ∧
    (flee s).player.x = max 0 (s.player.x - 50) ∧
    (flee s).player.y = max 0 (s.player.y - 50) ∧
    (100 ≤ s.player.x → 100 ≤ s.player.y →
      (flee (flee s)).player.x = s.player.x - 100 ∧
      (flee (flee s)).player.y = s.player.y - 100) := by
  refine ⟨rfl, rfl, rfl, rfl, rfl, rfl, rfl, fun hx hy => ⟨?_, ?_⟩⟩
  · show max 0 (max 0 (s.player.x - 50) - 50) = s.player.x - 100
    rw [show max 0 (s.player.x - 50) = s.player.x - 50 from
          max_eq_right (by linarith),
        max_eq_right (by linarith)]
    ring
  · show max 0 (max 0 (s.player.y - 50) - 50) = s.player.y - 100
    rw [show max 0 (s.player.y - 50) = s.player.y - 50 from
          max_eq_right (by linarith),
        max_eq_right (by linarith)]
    ring

/-- Witness for C9 (amended) at a concrete player position (150, 150). -/
theorem C9_flee_amended_witness :
    (flee { sampleCombatState with
        player := { samplePlayer with x := 150, y := 150 } }).inCombat = none ∧
    (flee (flee { sampleCombatState with
        player := { samplePlayer with x := 150, y := 150 } })).player.x = 50 :=
  ⟨(C9_flee_amended _).1,
   by
    have h := (C9_flee_amended { sampleCombatState with
        player := { samplePlayer with x := 150, y := 150 } }).2.2.2.2.2.2.2
      (by norm_num [sampleCombatState, samplePlayer])
      (by norm_num [sampleCombatState, samplePlayer])
    rw [h.1]
    norm_num [sampleCombatState, samplePlayer]⟩

end FleeTheorems

section PlacementTheorems

/-- C8: every position accepted by `isValidPosition` lies at distance at
least `minDistanceFromPlayer` from the player spawn (50, 50) — with
`minDistanceFromPlayer = 80`, never within 80 units — every accepted NPC
position lies inside at least one safe zone, every accepted enemy position
lies outside all safe zones, and treasure acceptance is unconstrained by the
safe-zone list (validity is preserved under replacing it). -/
theorem C8_placement_constraints
    (c : PlacementConstraint) (placed : List PlacedPos)
    (pos : ℝ × ℝ) (rule : PlacementRule)
    (hv : isValidPosition c placed pos rule) :
    c.minDistanceFromPlayer ≤ pdist pos (50, 50) ∧
    (c.minDistanceFromPlayer = 80 → ¬ pdist pos (50, 50) < 80) ∧
    (rule.entityType = .npc →
      ∃ z ∈ c.safeZones, pdist pos (z.x, z.y) < z.radius) ∧
    (rule.entityType = .enemy →
      ∀ z ∈ c.safeZones, z.radius ≤ pdist pos (z.x, z.y)) ∧
    (rule.entityType = .treasure → ∀ zs : List Zone,
      isValidPosition { c with safeZones := zs } placed pos rule) := by
  obtain ⟨h1, h2, h3, h4⟩ := hv
  refine ⟨not_lt.mp h1, fun h80 => h80 ▸ h1, fun hn => ?_, fun hn z hz => ?_,
    fun htr zs => ⟨h1, ?_, ?_, h4⟩⟩
  · by_contra hno
    exact h2 ⟨hn, hno⟩
  · exact not_lt.mp fun hlt => h3 ⟨hn, ⟨z, hz, hlt⟩⟩
  · rintro ⟨hnpc, -⟩
    rw [htr] at hnpc
    exact EntityType.noConfusion hnpc
  · rintro ⟨hene, -⟩
    rw [htr] at hene
    exact EntityType.noConfusion hene

/-- Witness for C8: the candidate (200, 50) — at distance 150 from the spawn
(50, 50) — is accepted for an enemy under `minDistanceFromPlayer = 80` with
no safe zones, and the accepted position satisfies the distance bound. -/
theorem C8_placement_constraints_witness :
    isValidPosition witnessConstraint [] ((200 : ℝ), (50 : ℝ)) enemyRule ∧
    witnessConstraint.minDistanceFromPlayer
      ≤ pdist ((200 : ℝ), (50 : ℝ)) (50, 50) ∧
    (∀ z ∈ witnessConstraint.safeZones,
      z.radius ≤ pdist ((200 : ℝ), (50 : ℝ)) (z.x, z.y)) := by
  have hd : pdist ((200 : ℝ), (50 : ℝ)) (50, 50) = 150 := by
    unfold pdist
    rw [show ((200 : ℝ) - 50) ^ 2 + ((50 : ℝ) - 50) ^ 2 = 150 ^ 2 by norm_num,
      Real.sqrt_sq (by norm_num : (0 : ℝ) ≤ 150)]
  have hv : isValidPosition witnessConstraint [] ((200 : ℝ), (50 : ℝ))
      enemyRule := by
    refine ⟨?_, ?_, ?_, ?_⟩
    · rw [hd]
      show ¬ (150 : ℝ) < witnessConstraint.minDistanceFromPlayer
      norm_num [witnessConstraint]
    · rintro ⟨hnpc, -⟩
      exact EntityType.noConfusion hnpc
    · rintro ⟨-, z, hz, -⟩
      exact absurd hz (List.not_mem_nil z)
    · rintro ⟨p, hp, -⟩
      exact absurd hp (List.not_mem_nil p)
  exact ⟨hv,
    (C8_placement_constraints witnessConstraint [] ((200 : ℝ), (50 : ℝ))
      enemyRule hv).1,
    (C8_placement_constraints witnessConstraint [] ((200 : ℝ), (50 : ℝ))
      enemyRule hv).2.2.2.1 rfl⟩

end PlacementTheorems

end LlmGame
